import Mathlib

/-!
# Verification of the donation-tracker store layer

A shallow embedding of `src/donation-tracker.py`: the SQLite-backed store is
modelled as lists of rows, and each interactive operation as a pure function
from the raw user inputs and the current store to the new store and a result
message.  SQL behaviour that the program relies on (LOWER, LIKE, UNIQUE,
foreign-key actions, CHECK(amount > 0)) is modelled explicitly.

Interactive inputs are passed as explicit arguments, in prompt order.  The
amount input is passed as `Option Rat`: `none` models a `float(...)` parse
failure (`ValueError`), `some a` a successfully parsed numeric value (REAL
values are modelled as rationals).  The current clock is passed as a `now`
string where the code uses `CURRENT_TIMESTAMP` or `datetime.now()`.
-/

namespace DonationTracker

/-! ## String utilities: Python `str.strip`, SQLite `LOWER` -/

/-- ASCII whitespace recognised by Python's `str.strip()` (restricted to the
ASCII range, which is all the repository's prompts deal in). -/
def pySpace (c : Char) : Bool :=
  c == ' ' || c == '\t' || c == '\n' || c == '\r' || c == '\x0b' || c == '\x0c'

/-- Strip leading and trailing whitespace from a list of characters. -/
def trimChars (l : List Char) : List Char :=
  ((l.dropWhile pySpace).reverse.dropWhile pySpace).reverse

/-- Python's `str.strip()` on a string. -/
def pyStrip (s : String) : String := ⟨trimChars s.data⟩

/-- SQLite's `LOWER` on one character: ASCII-only lowercasing.  (Python's
`str.lower()` agrees with it on ASCII, which is what `delete_donor` uses on
the confirmation input.) -/
def lowerChar (c : Char) : Char :=
  if 'A' ≤ c ∧ c ≤ 'Z' then Char.ofNat (c.toNat + 32) else c

/-- SQLite's `LOWER` on a string. -/
def lowerStr (s : String) : String := ⟨s.data.map lowerChar⟩

/-- A string with no leading and no trailing whitespace character. -/
def NoSurroundingSpace (s : String) : Prop :=
  (∀ c, s.data.head? = some c → pySpace c = false) ∧
  (∀ c, s.data.getLast? = some c → pySpace c = false)

/-! ## `datetime.strptime` date validation

`add_event` validates its optional date with `strptime(s, '%Y-%m-%d')` and
`add_donation` its optional timestamp with `strptime(s, '%Y-%m-%d %H:%M:%S')`.
CPython's `_strptime` compiles each directive to a regular expression
(`%Y` = exactly four digits; `%m` = `1[0-2]|0[1-9]|[1-9]`;
`%d` = `3[01]|[12]\d|0[1-9]|[1-9]`; `%H` = `2[0-3]|[0-1]\d|\d`;
`%M`,`%S` = `[0-5]\d|\d`; a whitespace in the format matches one or more
whitespace characters), requires the whole string to be consumed, and then the
`datetime` constructor checks `1 ≤ year ≤ 9999` and the day against the month
length.  The parsers below implement exactly those alternations: two digits
when their value is admissible, else one digit. -/

/-- Value of an ASCII digit. -/
def digitVal (c : Char) : Option Nat :=
  if '0' ≤ c ∧ c ≤ '9' then some (c.toNat - 48) else none

/-- Consume exactly two digits whose combined value satisfies `ok`. -/
def parseTwo (ok : Nat → Bool) : List Char → Option (Nat × List Char)
  | c1 :: c2 :: rest =>
    match digitVal c1, digitVal c2 with
    | some d1, some d2 =>
      if ok (10 * d1 + d2) then some (10 * d1 + d2, rest) else none
    | _, _ => none
  | _ => none

/-- Consume exactly one digit whose value satisfies `ok`. -/
def parseOne (ok : Nat → Bool) : List Char → Option (Nat × List Char)
  | c :: rest =>
    match digitVal c with
    | some d => if ok d then some (d, rest) else none
    | none => none
  | [] => none

/-- Two admissible digits if possible, else one admissible digit: the shape of
the `_strptime` alternations for `%m`, `%d`, `%H`, `%M`, `%S`. -/
def parseTwoOrOne (ok2 ok1 : Nat → Bool) (cs : List Char) : Option (Nat × List Char) :=
  match parseTwo ok2 cs with
  | some r => some r
  | none => parseOne ok1 cs

/-- `%Y`: exactly four digits. -/
def parseYear : List Char → Option (Nat × List Char)
  | a :: b :: c :: d :: rest =>
    match digitVal a, digitVal b, digitVal c, digitVal d with
    | some x, some y, some z, some w => some (1000 * x + 100 * y + 10 * z + w, rest)
    | _, _, _, _ => none
  | _ => none

/-- A literal character in the format. -/
def parseChar (ch : Char) : List Char → Option (List Char)
  | c :: rest => if c = ch then some rest else none
  | [] => none

/-- Whitespace in the format: one or more whitespace characters. -/
def parseSpaces : List Char → Option (List Char)
  | c :: rest => if pySpace c then some (rest.dropWhile pySpace) else none
  | [] => none

/-- Gregorian leap year, as `datetime` uses. -/
def isLeap (y : Nat) : Bool := (y % 4 == 0 && y % 100 != 0) || y % 400 == 0

/-- Length of a month, as the `datetime` constructor checks. -/
def daysInMonth (y m : Nat) : Nat :=
  if m = 2 then (if isLeap y then 29 else 28)
  else if m = 4 ∨ m = 6 ∨ m = 9 ∨ m = 11 then 30
  else 31

/-- `%Y-%m-%d`. -/
def parseDate (cs : List Char) : Option ((Nat × Nat × Nat) × List Char) :=
  (parseYear cs).bind fun (y, cs) =>
  (parseChar '-' cs).bind fun cs =>
  (parseTwoOrOne (fun v => 1 ≤ v && v ≤ 12) (fun v => 1 ≤ v) cs).bind fun (m, cs) =>
  (parseChar '-' cs).bind fun cs =>
  (parseTwoOrOne (fun v => 1 ≤ v && v ≤ 31) (fun v => 1 ≤ v) cs).bind fun (d, cs) =>
  some ((y, m, d), cs)

/-- `%H:%M:%S`. -/
def parseTime (cs : List Char) : Option ((Nat × Nat × Nat) × List Char) :=
  (parseTwoOrOne (fun v => v ≤ 23) (fun _ => true) cs).bind fun (h, cs) =>
  (parseChar ':' cs).bind fun cs =>
  (parseTwoOrOne (fun v => v ≤ 59) (fun _ => true) cs).bind fun (mi, cs) =>
  (parseChar ':' cs).bind fun cs =>
  (parseTwoOrOne (fun v => v ≤ 59) (fun _ => true) cs).bind fun (se, cs) =>
  some ((h, mi, se), cs)

/-- The range checks done by the `datetime` constructor itself. -/
def validYMD (y m d : Nat) : Bool :=
  1 ≤ y && y ≤ 9999 && 1 ≤ d && d ≤ daysInMonth y m

/-- `datetime.strptime(s, '%Y-%m-%d')` succeeds. -/
def validDate (s : String) : Bool :=
  match parseDate s.data with
  | some ((y, m, d), []) => validYMD y m d
  | _ => false

/-- `datetime.strptime(s, '%Y-%m-%d %H:%M:%S')` succeeds. -/
def validDateTime (s : String) : Bool :=
  match parseDate s.data with
  | some ((y, m, d), rest) =>
    match parseSpaces rest with
    | some rest2 =>
      match parseTime rest2 with
      | some (_, []) => validYMD y m d
      | _ => false
    | none => false
  | none => false

/-! ## SQLite `LIKE` -/

/-- SQLite `LIKE` matching of a pattern against a string: `'%'` matches any
(possibly empty) sequence, `'_'` any single character, anything else itself.
The queries in `search_donations` wrap both sides in `LOWER`, so the ASCII
case folding that `LIKE` additionally performs is already a no-op. -/
def likeMatch : List Char → List Char → Bool
  | [], s => s.isEmpty
  | p :: ps, s =>
    if p = '%' then s.tails.any fun t => likeMatch ps t
    else
      match s with
      | [] => false
      | c :: cs => (if p = '_' then true else p == c) && likeMatch ps cs

/-! ## The data model: the four tables of `create_tables` -/

/-- A row of the `Donors` table. -/
structure Donor where
  donor_id : Nat
  name : String
  contact_info : String
  created_at : String
deriving DecidableEq

/-- A row of the `Volunteers` table. -/
structure Volunteer where
  volunteer_id : Nat
  name : String
  contact_info : String
deriving DecidableEq

/-- A row of the `Events` table. -/
structure Event where
  event_id : Nat
  name : String
  event_date : Option String
deriving DecidableEq

/-- A row of the `Donations` table.  `volunteer_id` and `event_id` are the
nullable foreign keys; `amount` (a REAL) is modelled as a rational. -/
structure Donation where
  donation_id : Nat
  donor_id : Nat
  amount : Rat
  donation_date : String
  volunteer_id : Option Nat
  event_id : Option Nat
  notes : String
deriving DecidableEq

/-- The whole store: the four tables plus the AUTOINCREMENT counters. -/
structure DB where
  donors : List Donor
  volunteers : List Volunteer
  events : List Event
  donations : List Donation
  nextDonorId : Nat
  nextVolunteerId : Nat
  nextEventId : Nat
  nextDonationId : Nat
deriving DecidableEq

/-- The store right after `create_tables` on a fresh file: all tables empty,
AUTOINCREMENT counters at 1. -/
def DB.empty : DB := ⟨[], [], [], [], 1, 1, 1, 1⟩

/-! ## `find_id_by_name` -/

/-- `find_id_by_name(conn, table, column, name)`: first row of the table whose
name matches case-insensitively (`WHERE LOWER(name) = LOWER(?)` followed by
`fetchone()`), or `none`. -/
def find_id_by_name {α : Type} (rows : List α) (getId : α → Nat) (getName : α → String)
    (nameValue : String) : Option Nat :=
  (rows.find? fun r => lowerStr (getName r) == lowerStr nameValue).map getId

/-! ## Donor CRUD -/

/-- Outcome reported by `add_donor`. -/
inductive AddDonorResult
  | emptyName
  | added (id : Nat)
deriving DecidableEq

/-- `add_donor(conn)`: strip both inputs, reject an empty name, otherwise
insert one row (`created_at` defaults to the current timestamp `now`). -/
def add_donor (db : DB) (rawName rawContact now : String) : DB × AddDonorResult :=
  let name := pyStrip rawName
  let contact := pyStrip rawContact
  if name = "" then (db, AddDonorResult.emptyName)
  else
    ({ db with
        donors := db.donors ++ [⟨db.nextDonorId, name, contact, now⟩],
        nextDonorId := db.nextDonorId + 1 },
      AddDonorResult.added db.nextDonorId)

/-- Outcome reported by `update_donor`. -/
inductive UpdateDonorResult
  | invalidId
  | notFound
  | noChanges
  | updated
deriving DecidableEq

/-- `update_donor(conn)`.  `idInput` is the outcome of `int(input(...))`
(`none` models a `ValueError`).  Existence is checked before any mutation;
blank (stripped-empty) fields are dropped from the update; if both are blank
no UPDATE statement is issued. -/
def update_donor (db : DB) (idInput : Option Int) (rawName rawContact : String) :
    DB × UpdateDonorResult :=
  match idInput with
  | none => (db, UpdateDonorResult.invalidId)
  | some did =>
    match db.donors.find? (fun d => (d.donor_id : Int) == did) with
    | none => (db, UpdateDonorResult.notFound)
    | some _ =>
      let newName := pyStrip rawName
      let newContact := pyStrip rawContact
      if newName = "" ∧ newContact = "" then (db, UpdateDonorResult.noChanges)
      else
        ({ db with
            donors := db.donors.map fun d =>
              if (d.donor_id : Int) == did then
                { d with
                    name := if newName = "" then d.name else newName,
                    contact_info := if newContact = "" then d.contact_info else newContact }
              else d },
          UpdateDonorResult.updated)

/-- Outcome reported by `delete_donor`. -/
inductive DeleteDonorResult
  | invalidId
  | notFound
  | cancelled
  | deleted
deriving DecidableEq

/-- `delete_donor(conn)`.  `idInput` is the outcome of `int(input(...))`.
The confirmation input is lowercased (`.lower()`, not stripped) and compared
to `'yes'`.  The DELETE cascades to the donor's donations via the schema's
`ON DELETE CASCADE`. -/
def delete_donor (db : DB) (idInput : Option Int) (confirmInput : String) :
    DB × DeleteDonorResult :=
  match idInput with
  | none => (db, DeleteDonorResult.invalidId)
  | some did =>
    match db.donors.find? (fun d => (d.donor_id : Int) == did) with
    | none => (db, DeleteDonorResult.notFound)
    | some _ =>
      if lowerStr confirmInput ≠ "yes" then (db, DeleteDonorResult.cancelled)
      else
        ({ db with
            donors := db.donors.filter (fun d => (d.donor_id : Int) != did),
            donations := db.donations.filter (fun dn => (dn.donor_id : Int) != did) },
          DeleteDonorResult.deleted)

/-! ## Volunteer / Event add -/

/-- Outcome reported by `add_volunteer`. -/
inductive AddVolunteerResult
  | emptyName
  | duplicate
  | added (id : Nat)
deriving DecidableEq

/-- `add_volunteer(conn)`: strip inputs, reject an empty name; the INSERT
fails with an `IntegrityError` (leaving the store unchanged) exactly when the
`UNIQUE` constraint on `name` is violated, which under SQLite's default BINARY
collation is a case-sensitive exact comparison. -/
def add_volunteer (db : DB) (rawName rawContact : String) : DB × AddVolunteerResult :=
  let name := pyStrip rawName
  let contact := pyStrip rawContact
  if name = "" then (db, AddVolunteerResult.emptyName)
  else if db.volunteers.any (fun v => v.name == name) then (db, AddVolunteerResult.duplicate)
  else
    ({ db with
        volunteers := db.volunteers ++ [⟨db.nextVolunteerId, name, contact⟩],
        nextVolunteerId := db.nextVolunteerId + 1 },
      AddVolunteerResult.added db.nextVolunteerId)

/-- Outcome reported by `add_event`. -/
inductive AddEventResult
  | emptyName
  | invalidDate
  | duplicate
  | added (id : Nat)
deriving DecidableEq

/-- `add_event(conn)`: strip inputs, reject an empty name, then validate a
non-blank date with `strptime('%Y-%m-%d')` before any store mutation, then
insert; a duplicate (case-sensitive) name makes the INSERT fail with an
`IntegrityError`, leaving the store unchanged.  A blank date is stored as
NULL. -/
def add_event (db : DB) (rawName rawDate : String) : DB × AddEventResult :=
  let name := pyStrip rawName
  let dateStr := pyStrip rawDate
  if name = "" then (db, AddEventResult.emptyName)
  else if dateStr ≠ "" ∧ validDate dateStr = false then (db, AddEventResult.invalidDate)
  else if db.events.any (fun e => e.name == name) then (db, AddEventResult.duplicate)
  else
    ({ db with
        events := db.events ++
          [⟨db.nextEventId, name, if dateStr = "" then none else some dateStr⟩],
        nextEventId := db.nextEventId + 1 },
      AddEventResult.added db.nextEventId)

/-! ## Donation add -/

/-- Outcome reported by `add_donation`. -/
inductive AddDonationResult
  | donorNotFound
  | invalidAmount
  | nonPositiveAmount
  | invalidDate
  | added (id : Nat)
deriving DecidableEq

/-- `add_donation(conn)`, in prompt order: resolve the stripped donor name
(abort if unresolved); parse the amount (`none` = `ValueError`, abort) and
require it positive; accept a blank date (use `now`) or validate it with
`strptime('%Y-%m-%d %H:%M:%S')` (abort if malformed); resolve the optional
volunteer and event names, an unresolved one merely leaving that link NULL;
strip the notes; insert one row. -/
def add_donation (db : DB) (rawDonorName : String) (amountInput : Option Rat)
    (rawDateStr rawVolunteerName rawEventName rawNotes now : String) :
    DB × AddDonationResult :=
  let donorName := pyStrip rawDonorName
  match find_id_by_name db.donors Donor.donor_id Donor.name donorName with
  | none => (db, AddDonationResult.donorNotFound)
  | some did =>
    match amountInput with
    | none => (db, AddDonationResult.invalidAmount)
    | some amount =>
      if amount ≤ 0 then (db, AddDonationResult.nonPositiveAmount)
      else
        let dateStr := pyStrip rawDateStr
        match (if dateStr = "" then some now
               else if validDateTime dateStr then some dateStr else none) with
        | none => (db, AddDonationResult.invalidDate)
        | some donationDate =>
          let volunteerName := pyStrip rawVolunteerName
          let volunteerId :=
            if volunteerName = "" then none
            else find_id_by_name db.volunteers Volunteer.volunteer_id Volunteer.name volunteerName
          let eventName := pyStrip rawEventName
          let eventId :=
            if eventName = "" then none
            else find_id_by_name db.events Event.event_id Event.name eventName
          let notes := pyStrip rawNotes
          ({ db with
              donations := db.donations ++
                [⟨db.nextDonationId, did, amount, donationDate, volunteerId, eventId, notes⟩],
              nextDonationId := db.nextDonationId + 1 },
            AddDonationResult.added db.nextDonationId)

/-! ## Schema-level deletes

The application exposes no delete operation for volunteers or events, but the
schema in `create_tables` declares what a row deletion would do to dependent
donations: `ON DELETE SET NULL` on both nullable foreign keys. -/

/-- Deleting a `Volunteers` row: dependent donations get `volunteer_id`
cleared (`ON DELETE SET NULL`), the donation rows themselves remain. -/
def delete_volunteer_row (db : DB) (vid : Nat) : DB :=
  { db with
      volunteers := db.volunteers.filter (fun v => v.volunteer_id != vid),
      donations := db.donations.map fun dn =>
        if dn.volunteer_id = some vid then { dn with volunteer_id := none } else dn }

/-- Deleting an `Events` row: dependent donations get `event_id` cleared
(`ON DELETE SET NULL`). -/
def delete_event_row (db : DB) (eid : Nat) : DB :=
  { db with
      events := db.events.filter (fun e => e.event_id != eid),
      donations := db.donations.map fun dn =>
        if dn.event_id = some eid then { dn with event_id := none } else dn }

/-! ## Donation search -/

/-- One row of the SELECT in `search_donations`: Donations inner-joined to
Donors, left-joined to Volunteers and Events (the two names NULL when there is
no linked row). -/
structure SearchRow where
  donation_id : Nat
  donor_name : String
  amount : Rat
  donation_date : String
  volunteer_name : Option String
  event_name : Option String
  notes : String
deriving DecidableEq

/-- The join of the `search_donations` query, before filtering and ordering. -/
def joinedRows (db : DB) : List SearchRow :=
  db.donations.filterMap fun dn =>
    (db.donors.find? (fun d => d.donor_id == dn.donor_id)).map fun donor =>
      { donation_id := dn.donation_id
        donor_name := donor.name
        amount := dn.amount
        donation_date := dn.donation_date
        volunteer_name := dn.volunteer_id.bind fun vid =>
          (db.volunteers.find? (fun v => v.volunteer_id == vid)).map Volunteer.name
        event_name := dn.event_id.bind fun eid =>
          (db.events.find? (fun e => e.event_id == eid)).map Event.name
        notes := dn.notes }

/-- The name column the WHERE clause of the chosen axis reads (NULL when the
left join produced no row). -/
def axisName (choice : String) (r : SearchRow) : Option String :=
  if choice = "1" then some r.donor_name
  else if choice = "2" then r.volunteer_name
  else if choice = "3" then r.event_name
  else none

/-- `LOWER('%' || term || '%')`, the bound LIKE parameter. -/
def likePattern (term : String) : List Char :=
  (lowerStr ⟨'%' :: term.data ++ ['%']⟩).data

/-- The WHERE clause `LOWER(col) LIKE LOWER('%term%')`; a NULL column never
matches (`NULL LIKE x` is NULL). -/
def axisMatch (choice term : String) (r : SearchRow) : Bool :=
  match axisName choice r with
  | none => false
  | some n => likeMatch (likePattern term) (lowerStr n).data

/-- `ORDER BY d.donation_date DESC` as a relation on joined rows. -/
def dateGe (a b : SearchRow) : Prop := b.donation_date ≤ a.donation_date

instance : DecidableRel dateGe := fun a b =>
  inferInstanceAs (Decidable (b.donation_date ≤ a.donation_date))

instance : IsTotal SearchRow dateGe :=
  ⟨fun a b => le_total b.donation_date a.donation_date⟩

instance : IsTrans SearchRow dateGe :=
  ⟨fun _ _ _ h1 h2 => le_trans h2 h1⟩

/-- Outcome of `search_donations`. -/
inductive SearchResult
  | emptyTerm
  | invalidChoice
  | results (rows : List SearchRow)
deriving DecidableEq

/-- `search_donations(conn)`: the axis choice is read first (unstripped), the
term second (stripped); an empty term aborts before the choice is examined;
an invalid choice aborts; otherwise the join is filtered by the axis's LIKE
clause and ordered by donation date descending. -/
def search_donations (db : DB) (choice rawTerm : String) : SearchResult :=
  let term := pyStrip rawTerm
  if term = "" then SearchResult.emptyTerm
  else if choice = "1" ∨ choice = "2" ∨ choice = "3" then
    SearchResult.results
      (List.insertionSort dateGe ((joinedRows db).filter (axisMatch choice term)))
  else SearchResult.invalidChoice

/-! ## Reachable stores

Every store state the program can produce: the empty store left by
`create_tables` on a fresh file, followed by any sequence of the menu
operations (and, for completeness of the schema semantics, the row deletions
the schema itself defines for volunteers and events). -/

inductive Reachable : DB → Prop
  | init : Reachable DB.empty
  | step_add_donor (db : DB) (n c t : String) :
      Reachable db → Reachable (add_donor db n c t).1
  | step_update_donor (db : DB) (i : Option Int) (n c : String) :
      Reachable db → Reachable (update_donor db i n c).1
  | step_delete_donor (db : DB) (i : Option Int) (conf : String) :
      Reachable db → Reachable (delete_donor db i conf).1
  | step_add_volunteer (db : DB) (n c : String) :
      Reachable db → Reachable (add_volunteer db n c).1
  | step_add_event (db : DB) (n d : String) :
      Reachable db → Reachable (add_event db n d).1
  | step_add_donation (db : DB) (dn : String) (a : Option Rat) (ds vn en no t : String) :
      Reachable db → Reachable (add_donation db dn a ds vn en no t).1
  | step_delete_volunteer (db : DB) (vid : Nat) :
      Reachable db → Reachable (delete_volunteer_row db vid)
  | step_delete_event (db : DB) (eid : Nat) :
      Reachable db → Reachable (delete_event_row db eid)

/-- Referential integrity of the donor foreign key: every donation row
references an existing donor row. -/
def DonorFK (db : DB) : Prop :=
  ∀ dn ∈ db.donations, ∃ d ∈ db.donors, d.donor_id = dn.donor_id

/-- Every stored entity name is free of surrounding whitespace. -/
def NamesStripped (db : DB) : Prop :=
  (∀ d ∈ db.donors, NoSurroundingSpace d.name) ∧
  (∀ v ∈ db.volunteers, NoSurroundingSpace v.name) ∧
  (∀ e ∈ db.events, NoSurroundingSpace e.name)

/-! ## Example stores used to instantiate the theorems -/

/-- A store holding one donor, "Ada Lovelace". -/
def adaDB : DB :=
  { DB.empty with
      donors := [⟨1, "Ada Lovelace", "ada@example.org", "2024-01-01 00:00:00"⟩],
      nextDonorId := 2 }

/-- A store with two donors and three donations, two of them Ann's. -/
def twoDonorDB : DB :=
  { DB.empty with
      donors := [⟨1, "Ann", "", "t"⟩, ⟨2, "Bob", "", "t"⟩],
      donations := [⟨1, 1, 10, "2024-01-01 00:00:00", none, none, ""⟩,
                    ⟨2, 1, 20, "2024-01-02 00:00:00", none, none, ""⟩,
                    ⟨3, 2, 30, "2024-01-03 00:00:00", none, none, ""⟩],
      nextDonorId := 3, nextDonationId := 4 }

/-- A store with one donor, one event "Gala" and one donation linked to it. -/
def galaDB : DB :=
  { DB.empty with
      donors := [⟨1, "Ada Lovelace", "", "t"⟩],
      events := [⟨1, "Gala", none⟩],
      donations := [⟨1, 1, 50, "2024-01-02 00:00:00", none, some 1, ""⟩],
      nextDonorId := 2, nextEventId := 2, nextDonationId := 2 }

/-- The joined row the `galaDB` donation produces in `search_donations`. -/
def galaRow : SearchRow := ⟨1, "Ada Lovelace", 50, "2024-01-02 00:00:00", none, some "Gala", ""⟩

/-- A store holding one volunteer, "Bob". -/
def volDB : DB :=
  { DB.empty with volunteers := [⟨1, "Bob", ""⟩], nextVolunteerId := 2 }

/-! ## Lemmas about stripping -/

theorem head?_dropWhile_false {α : Type} (p : α → Bool) (l : List α) (c : α)
    (h : (l.dropWhile p).head? = some c) : p c = false := by
  induction l with
  | nil => simp [List.dropWhile] at h
  | cons a t ih =>
    rw [List.dropWhile_cons] at h
    split at h
    · exact ih h
    · rename_i hp
      simp only [List.head?_cons, Option.some.injEq] at h
      subst h
      simpa using hp

theorem dropWhile_eq_self_of_head {α : Type} (p : α → Bool) (l : List α)
    (h : ∀ c, l.head? = some c → p c = false) : l.dropWhile p = l := by
  cases l with
  | nil => rfl
  | cons a t =>
    have := h a rfl
    rw [List.dropWhile_cons]
    simp [this]

theorem getLast?_dropWhile {α : Type} (p : α → Bool) :
    ∀ l : List α, l.dropWhile p ≠ [] → (l.dropWhile p).getLast? = l.getLast?
  | [], h => absurd rfl h
  | a :: t, h => by
    rw [List.dropWhile_cons] at h ⊢
    by_cases hp : p a = true
    · rw [if_pos hp] at h ⊢
      rw [getLast?_dropWhile p t h]
      have ht : t ≠ [] := by
        intro he
        rw [he] at h
        exact h rfl
      cases t with
      | nil => exact absurd rfl ht
      | cons b u => rfl
    · rw [if_neg hp]

theorem trimChars_head (l : List Char) (c : Char) (h : (trimChars l).head? = some c) :
    pySpace c = false := by
  unfold trimChars at h
  rw [List.head?_reverse] at h
  by_cases hb : (l.dropWhile pySpace).reverse.dropWhile pySpace = []
  · rw [hb] at h
    simp at h
  · rw [getLast?_dropWhile pySpace _ hb, List.getLast?_reverse] at h
    exact head?_dropWhile_false pySpace l c h

theorem trimChars_getLast (l : List Char) (c : Char) (h : (trimChars l).getLast? = some c) :
    pySpace c = false := by
  unfold trimChars at h
  rw [List.getLast?_reverse] at h
  exact head?_dropWhile_false pySpace _ c h

theorem pyStrip_noSurroundingSpace (s : String) : NoSurroundingSpace (pyStrip s) :=
  ⟨fun c h => trimChars_head s.data c h, fun c h => trimChars_getLast s.data c h⟩

theorem trimChars_eq_self (l : List Char)
    (h1 : ∀ c, l.head? = some c → pySpace c = false)
    (h2 : ∀ c, l.getLast? = some c → pySpace c = false) : trimChars l = l := by
  unfold trimChars
  rw [dropWhile_eq_self_of_head pySpace l h1,
    dropWhile_eq_self_of_head pySpace l.reverse
      (fun c hc => h2 c (by rwa [List.head?_reverse] at hc)),
    List.reverse_reverse]

theorem pyStrip_eq_self (s : String) (h : NoSurroundingSpace s) : pyStrip s = s := by
  unfold pyStrip
  rw [trimChars_eq_self s.data h.1 h.2]

theorem pyStrip_idem (s : String) : pyStrip (pyStrip s) = pyStrip s :=
  pyStrip_eq_self _ (pyStrip_noSurroundingSpace s)

theorem pyStrip_eq_empty_of_all_space (s : String) (h : ∀ c ∈ s.data, pySpace c = true) :
    pyStrip s = "" := by
  unfold pyStrip trimChars
  rw [List.dropWhile_eq_nil_iff.mpr h]
  rfl

/-! ## Lemmas about the name resolver -/

theorem find_id_by_name_isSome {α : Type} (rows : List α) (getId : α → Nat)
    (getName : α → String) (nv : String) :
    (find_id_by_name rows getId getName nv).isSome = true ↔
      ∃ r ∈ rows, lowerStr (getName r) = lowerStr nv := by
  simp [find_id_by_name, List.find?_isSome]

theorem find_id_by_name_some_mem {α : Type} (rows : List α) (getId : α → Nat)
    (getName : α → String) (nv : String) (i : Nat)
    (h : find_id_by_name rows getId getName nv = some i) :
    ∃ r ∈ rows, getId r = i ∧ lowerStr (getName r) = lowerStr nv := by
  unfold find_id_by_name at h
  rw [Option.map_eq_some'] at h
  obtain ⟨r, hr, hid⟩ := h
  exact ⟨r, List.mem_of_find?_eq_some hr, hid, by simpa using List.find?_some hr⟩

/-! ## Lemmas about ASCII lowercasing -/

theorem toNat_ofNat_valid (n : Nat) (h : n.isValidChar) : (Char.ofNat n).toNat = n := by
  rw [Char.ofNat, dif_pos h]
  simp [Char.ofNatAux, Char.toNat, UInt32.toNat, BitVec.toNat_ofNatLt]

/-- `LOWER` can only produce a character in `a`-`z` or leave its input
untouched; so it reflects inequality to any character below `'a'`. -/
theorem lowerChar_eq_low (c d : Char) (hd : d.toNat < 97) (h : lowerChar c = d) : c = d := by
  unfold lowerChar at h
  split at h
  · rename_i hc
    exfalso
    obtain ⟨h1, h2⟩ := hc
    rw [Char.le_def, UInt32.le_def, BitVec.le_def] at h1 h2
    have h1' : 65 ≤ c.toNat := h1
    have h2' : c.toNat ≤ 90 := h2
    have hv : (c.toNat + 32).isValidChar := Or.inl (by omega)
    have := toNat_ofNat_valid (c.toNat + 32) hv
    rw [h] at this
    omega
  · exact h

/-! ## Lemmas about `LIKE` -/

theorem lowerChar_percent : lowerChar '%' = '%' := by decide

theorem likePattern_eq (term : String) :
    likePattern term = '%' :: ((lowerStr term).data ++ ['%']) := by
  simp [likePattern, lowerStr, lowerChar_percent]

theorem lowerStr_wildcard_free (s : String) (h : ∀ c ∈ s.data, c ≠ '%' ∧ c ≠ '_') :
    ∀ c ∈ (lowerStr s).data, c ≠ '%' ∧ c ≠ '_' := by
  intro c hc
  simp only [lowerStr, List.mem_map] at hc
  obtain ⟨d, hd, rfl⟩ := hc
  have hdw := h d hd
  exact ⟨fun he => hdw.1 (lowerChar_eq_low d '%' (by decide) he),
    fun he => hdw.2 (lowerChar_eq_low d '_' (by decide) he)⟩

/-- A leading `'%'` matches via some suffix of the string. -/
theorem likeMatch_percent_cons (p : List Char) (s : List Char) :
    likeMatch ('%' :: p) s = true ↔ ∃ t, t <:+ s ∧ likeMatch p t = true := by
  simp [likeMatch, List.mem_tails]

/-- A trailing `'%'` after a wildcard-free pattern matches exactly the strings
that start with the pattern. -/
theorem likeMatch_append_percent (p : List Char) (hp : ∀ c ∈ p, c ≠ '%' ∧ c ≠ '_') :
    ∀ s : List Char, likeMatch (p ++ ['%']) s = true ↔ p <+: s := by
  induction p with
  | nil =>
    intro s
    constructor
    · intro _
      exact List.nil_prefix
    · intro _
      show likeMatch ('%' :: []) s = true
      rw [likeMatch_percent_cons]
      exact ⟨[], List.nil_suffix, rfl⟩
  | cons a q ih =>
    intro s
    have ha := hp a (List.mem_cons_self a q)
    have hq : ∀ c ∈ q, c ≠ '%' ∧ c ≠ '_' := fun c hc => hp c (List.mem_cons_of_mem a hc)
    cases s with
    | nil =>
      simp [likeMatch, ha.1]
    | cons b t =>
      have hstep : likeMatch ((a :: q) ++ ['%']) (b :: t) =
          ((a == b) && likeMatch (q ++ ['%']) t) := by
        simp [likeMatch, ha.1, ha.2]
      rw [hstep, Bool.and_eq_true, beq_iff_eq, ih hq t]
      constructor
      · rintro ⟨rfl, hpre⟩
        obtain ⟨u, hu⟩ := hpre
        exact ⟨u, by rw [List.cons_append, hu]⟩
      · intro hpre
        obtain ⟨u, hu⟩ := hpre
        rw [List.cons_append] at hu
        injection hu with h1 h2
        exact ⟨h1, ⟨u, h2⟩⟩

/-- `LIKE '%pat%'` with a wildcard-free `pat` is exactly the substring test. -/
theorem likeMatch_infix (pat s : List Char) (hpat : ∀ c ∈ pat, c ≠ '%' ∧ c ≠ '_') :
    likeMatch ('%' :: (pat ++ ['%'])) s = true ↔ pat <:+: s := by
  rw [likeMatch_percent_cons, List.infix_iff_prefix_suffix]
  constructor
  · rintro ⟨t, hts, hm⟩
    exact ⟨t, (likeMatch_append_percent pat hpat t).mp hm, hts⟩
  · rintro ⟨t, hpre, hts⟩
    exact ⟨t, hts, (likeMatch_append_percent pat hpat t).mpr hpre⟩

/-- The WHERE clause of a chosen axis, for a wildcard-free term: true exactly
when the axis's name column is non-NULL and contains the lowercased term. -/
theorem axisMatch_iff_infix (choice term : String) (r : SearchRow)
    (hwild : ∀ c ∈ term.data, c ≠ '%' ∧ c ≠ '_') :
    axisMatch choice term r = true ↔
      ∃ n, axisName choice r = some n ∧
        List.IsInfix (lowerStr term).data (lowerStr n).data := by
  unfold axisMatch
  cases h : axisName choice r with
  | none => simp
  | some n =>
    rw [likePattern_eq, likeMatch_infix _ _ (lowerStr_wildcard_free term hwild)]
    simp

/-! ## Preservation of donor referential integrity -/

theorem donorFK_mono (db db' : DB)
    (hdn : db'.donations = db.donations)
    (hd : ∀ d ∈ db.donors, d ∈ db'.donors)
    (h : DonorFK db) : DonorFK db' := by
  intro dn hmem
  rw [hdn] at hmem
  obtain ⟨d, hdm, heq⟩ := h dn hmem
  exact ⟨d, hd d hdm, heq⟩

theorem donorFK_add_donor (db : DB) (n c t : String) (h : DonorFK db) :
    DonorFK (add_donor db n c t).1 := by
  refine donorFK_mono db _ ?_ ?_ h
  · simp only [add_donor]
    split <;> rfl
  · simp only [add_donor]
    split
    · exact fun d hd => hd
    · exact fun d hd => List.mem_append_left _ hd

theorem add_volunteer_donations (db : DB) (n c : String) :
    (add_volunteer db n c).1.donations = db.donations := by
  simp only [add_volunteer]
  split
  · rfl
  · split <;> rfl

theorem add_volunteer_donors (db : DB) (n c : String) :
    (add_volunteer db n c).1.donors = db.donors := by
  simp only [add_volunteer]
  split
  · rfl
  · split <;> rfl

theorem add_event_donations (db : DB) (n dt : String) :
    (add_event db n dt).1.donations = db.donations := by
  simp only [add_event]
  split
  · rfl
  · split
    · rfl
    · split <;> rfl

theorem add_event_donors (db : DB) (n dt : String) :
    (add_event db n dt).1.donors = db.donors := by
  simp only [add_event]
  split
  · rfl
  · split
    · rfl
    · split <;> rfl

theorem donorFK_add_volunteer (db : DB) (n c : String) (h : DonorFK db) :
    DonorFK (add_volunteer db n c).1 :=
  donorFK_mono db _ (add_volunteer_donations db n c)
    (fun _ hd => (add_volunteer_donors db n c).symm ▸ hd) h

theorem donorFK_add_event (db : DB) (n dt : String) (h : DonorFK db) :
    DonorFK (add_event db n dt).1 :=
  donorFK_mono db _ (add_event_donations db n dt)
    (fun _ hd => (add_event_donors db n dt).symm ▸ hd) h

theorem donorFK_update_donor (db : DB) (i : Option Int) (n c : String) (h : DonorFK db) :
    DonorFK (update_donor db i n c).1 := by
  intro dn hdn
  cases i with
  | none => exact h dn hdn
  | some did =>
    cases hf : db.donors.find? fun d => (d.donor_id : Int) == did with
    | none =>
      simp only [update_donor, hf] at hdn ⊢
      exact h dn hdn
    | some d0 =>
      by_cases hb : pyStrip n = "" ∧ pyStrip c = ""
      · simp only [update_donor, hf, if_pos hb] at hdn ⊢
        exact h dn hdn
      · simp only [update_donor, hf, if_neg hb] at hdn ⊢
        obtain ⟨d, hd, heq⟩ := h dn hdn
        refine ⟨_, List.mem_map_of_mem _ hd, ?_⟩
        split <;> simpa using heq

theorem donorFK_delete_donor (db : DB) (i : Option Int) (conf : String) (h : DonorFK db) :
    DonorFK (delete_donor db i conf).1 := by
  intro dn hdn
  cases i with
  | none => exact h dn hdn
  | some did =>
    cases hf : db.donors.find? fun d => (d.donor_id : Int) == did with
    | none =>
      simp only [delete_donor, hf] at hdn ⊢
      exact h dn hdn
    | some d0 =>
      by_cases hc : lowerStr conf ≠ "yes"
      · simp only [delete_donor, hf, if_pos hc] at hdn ⊢
        exact h dn hdn
      · simp only [delete_donor, hf, if_neg hc] at hdn ⊢
        rw [List.mem_filter] at hdn
        obtain ⟨hmem, hne⟩ := hdn
        obtain ⟨d, hd, heq⟩ := h dn hmem
        refine ⟨d, List.mem_filter.mpr ⟨hd, ?_⟩, heq⟩
        rwa [heq]

theorem donorFK_add_donation (db : DB) (rawDonor : String) (a : Option Rat)
    (ds vn en no t : String) (h : DonorFK db) :
    DonorFK (add_donation db rawDonor a ds vn en no t).1 := by
  intro dn hdn
  cases hf : find_id_by_name db.donors Donor.donor_id Donor.name (pyStrip rawDonor) with
  | none =>
    simp only [add_donation, hf] at hdn ⊢
    exact h dn hdn
  | some did =>
    cases a with
    | none =>
      simp only [add_donation, hf] at hdn ⊢
      exact h dn hdn
    | some amount =>
      by_cases hle : amount ≤ 0
      · simp only [add_donation, hf, if_pos hle] at hdn ⊢
        exact h dn hdn
      · cases hd : (if pyStrip ds = "" then some t
            else if validDateTime (pyStrip ds) = true then some (pyStrip ds) else none) with
        | none =>
          simp only [add_donation, hf, if_neg hle, hd] at hdn ⊢
          exact h dn hdn
        | some dd =>
          simp only [add_donation, hf, if_neg hle, hd] at hdn ⊢
          rw [List.mem_append] at hdn
          rcases hdn with hold | hnew
          · exact h dn hold
          · rw [List.mem_singleton] at hnew
            subst hnew
            obtain ⟨r, hr, hid, _⟩ := find_id_by_name_some_mem db.donors
              Donor.donor_id Donor.name (pyStrip rawDonor) did hf
            exact ⟨r, hr, hid⟩

theorem donorFK_delete_volunteer (db : DB) (vid : Nat) (h : DonorFK db) :
    DonorFK (delete_volunteer_row db vid) := by
  intro dn hdn
  simp only [delete_volunteer_row, List.mem_map] at hdn
  obtain ⟨dn0, hdn0, hmap⟩ := hdn
  obtain ⟨d, hd, heq⟩ := h dn0 hdn0
  refine ⟨d, hd, ?_⟩
  rw [← hmap]
  split <;> simpa using heq

theorem donorFK_delete_event (db : DB) (eid : Nat) (h : DonorFK db) :
    DonorFK (delete_event_row db eid) := by
  intro dn hdn
  simp only [delete_event_row, List.mem_map] at hdn
  obtain ⟨dn0, hdn0, hmap⟩ := hdn
  obtain ⟨d, hd, heq⟩ := h dn0 hdn0
  refine ⟨d, hd, ?_⟩
  rw [← hmap]
  split <;> simpa using heq

/-- Every reachable store satisfies donor referential integrity. -/
theorem reachable_donorFK (db : DB) (h : Reachable db) : DonorFK db := by
  induction h with
  | init => intro dn hdn; simp [DB.empty] at hdn
  | step_add_donor db n c t _ ih => exact donorFK_add_donor db n c t ih
  | step_update_donor db i n c _ ih => exact donorFK_update_donor db i n c ih
  | step_delete_donor db i conf _ ih => exact donorFK_delete_donor db i conf ih
  | step_add_volunteer db n c _ ih => exact donorFK_add_volunteer db n c ih
  | step_add_event db n d _ ih => exact donorFK_add_event db n d ih
  | step_add_donation db dn a ds vn en no t _ ih =>
    exact donorFK_add_donation db dn a ds vn en no t ih
  | step_delete_volunteer db vid _ ih => exact donorFK_delete_volunteer db vid ih
  | step_delete_event db eid _ ih => exact donorFK_delete_event db eid ih

/-! ## Preservation of stripped names -/

theorem noSurr_append {α : Type} (l : List α) (x : α) (f : α → String)
    (h : ∀ a ∈ l, NoSurroundingSpace (f a)) (hx : NoSurroundingSpace (f x)) :
    ∀ a ∈ l ++ [x], NoSurroundingSpace (f a) := by
  intro a ha
  rcases List.mem_append.mp ha with hm | hm
  · exact h a hm
  · rw [List.mem_singleton] at hm
    subst hm
    exact hx

theorem noSurr_filter {α : Type} (l : List α) (p : α → Bool) (f : α → String)
    (h : ∀ a ∈ l, NoSurroundingSpace (f a)) :
    ∀ a ∈ l.filter p, NoSurroundingSpace (f a) :=
  fun a ha => h a (List.mem_filter.mp ha).1

theorem namesStripped_add_donor (db : DB) (n c t : String) (h : NamesStripped db) :
    NamesStripped (add_donor db n c t).1 := by
  by_cases he : pyStrip n = ""
  · simpa [add_donor, he] using h
  · refine ⟨?_, ?_, ?_⟩
    · intro d hd
      simp only [add_donor, if_neg he] at hd
      exact noSurr_append db.donors _ Donor.name h.1 (pyStrip_noSurroundingSpace n) d hd
    · intro v hv
      simp only [add_donor, if_neg he] at hv
      exact h.2.1 v hv
    · intro e hev
      simp only [add_donor, if_neg he] at hev
      exact h.2.2 e hev

theorem namesStripped_add_volunteer (db : DB) (n c : String) (h : NamesStripped db) :
    NamesStripped (add_volunteer db n c).1 := by
  by_cases he : pyStrip n = ""
  · simpa [add_volunteer, he] using h
  · by_cases hdup : (db.volunteers.any fun v => v.name == pyStrip n) = true
    · simpa [add_volunteer, he, hdup] using h
    · refine ⟨?_, ?_, ?_⟩
      · intro d hd
        simp only [add_volunteer, if_neg he, hdup] at hd
        exact h.1 d hd
      · intro v hv
        simp only [add_volunteer, if_neg he, hdup] at hv
        simp only [Bool.not_eq_true] at hdup
        exact noSurr_append db.volunteers _ Volunteer.name h.2.1
          (pyStrip_noSurroundingSpace n) v hv
      · intro e hev
        simp only [add_volunteer, if_neg he, hdup] at hev
        exact h.2.2 e hev

theorem namesStripped_add_event (db : DB) (n dt : String) (h : NamesStripped db) :
    NamesStripped (add_event db n dt).1 := by
  by_cases he : pyStrip n = ""
  · simpa [add_event, he] using h
  · by_cases hdate : pyStrip dt ≠ "" ∧ validDate (pyStrip dt) = false
    · simpa [add_event, he, hdate] using h
    · by_cases hdup : (db.events.any fun e => e.name == pyStrip n) = true
      · simpa [add_event, he, hdate, hdup] using h
      · refine ⟨?_, ?_, ?_⟩
        · intro d hd
          simp only [add_event, if_neg he, if_neg hdate, hdup] at hd
          exact h.1 d hd
        · intro v hv
          simp only [add_event, if_neg he, if_neg hdate, hdup] at hv
          exact h.2.1 v hv
        · intro e hev
          simp only [add_event, if_neg he, if_neg hdate, hdup] at hev
          exact noSurr_append db.events _ Event.name h.2.2
            (pyStrip_noSurroundingSpace n) e hev

theorem namesStripped_update_donor (db : DB) (i : Option Int) (n c : String)
    (h : NamesStripped db) : NamesStripped (update_donor db i n c).1 := by
  cases i with
  | none => exact h
  | some did =>
    cases hf : db.donors.find? fun d => (d.donor_id : Int) == did with
    | none => simpa [update_donor, hf] using h
    | some d0 =>
      by_cases hb : pyStrip n = "" ∧ pyStrip c = ""
      · simpa [update_donor, hf, hb] using h
      · refine ⟨?_, ?_, ?_⟩
        · intro d hd
          simp only [update_donor, hf, if_neg hb] at hd
          rw [List.mem_map] at hd
          obtain ⟨d1, hd1, rfl⟩ := hd
          split
          · show NoSurroundingSpace (if pyStrip n = "" then d1.name else pyStrip n)
            split
            · exact h.1 d1 hd1
            · exact pyStrip_noSurroundingSpace n
          · exact h.1 d1 hd1
        · intro v hv
          simp only [update_donor, hf, if_neg hb] at hv
          exact h.2.1 v hv
        · intro e hev
          simp only [update_donor, hf, if_neg hb] at hev
          exact h.2.2 e hev

theorem namesStripped_delete_donor (db : DB) (i : Option Int) (conf : String)
    (h : NamesStripped db) : NamesStripped (delete_donor db i conf).1 := by
  cases i with
  | none => exact h
  | some did =>
    cases hf : db.donors.find? fun d => (d.donor_id : Int) == did with
    | none => simpa [delete_donor, hf] using h
    | some d0 =>
      by_cases hc : lowerStr conf ≠ "yes"
      · simpa [delete_donor, hf, hc] using h
      · refine ⟨?_, ?_, ?_⟩
        · intro d hd
          simp only [delete_donor, hf, if_neg hc] at hd
          exact noSurr_filter db.donors _ Donor.name h.1 d hd
        · intro v hv
          simp only [delete_donor, hf, if_neg hc] at hv
          exact h.2.1 v hv
        · intro e hev
          simp only [delete_donor, hf, if_neg hc] at hev
          exact h.2.2 e hev

theorem namesStripped_add_donation (db : DB) (rawDonor : String) (a : Option Rat)
    (ds vn en no t : String) (h : NamesStripped db) :
    NamesStripped (add_donation db rawDonor a ds vn en no t).1 := by
  cases hf : find_id_by_name db.donors Donor.donor_id Donor.name (pyStrip rawDonor) with
  | none => simpa [add_donation, hf] using h
  | some did =>
    cases a with
    | none => simpa [add_donation, hf] using h
    | some amount =>
      by_cases hle : amount ≤ 0
      · simpa [add_donation, hf, hle] using h
      · cases hd : (if pyStrip ds = "" then some t
            else if validDateTime (pyStrip ds) = true then some (pyStrip ds) else none) with
        | none => simpa [add_donation, hf, hle, hd] using h
        | some dd =>
          refine ⟨?_, ?_, ?_⟩
          · intro d hdm
            simp only [add_donation, hf, if_neg hle, hd] at hdm
            exact h.1 d hdm
          · intro v hv
            simp only [add_donation, hf, if_neg hle, hd] at hv
            exact h.2.1 v hv
          · intro e hev
            simp only [add_donation, hf, if_neg hle, hd] at hev
            exact h.2.2 e hev

theorem namesStripped_delete_volunteer (db : DB) (vid : Nat) (h : NamesStripped db) :
    NamesStripped (delete_volunteer_row db vid) :=
  ⟨h.1, fun v hv => noSurr_filter db.volunteers _ Volunteer.name h.2.1 v hv, h.2.2⟩

theorem namesStripped_delete_event (db : DB) (eid : Nat) (h : NamesStripped db) :
    NamesStripped (delete_event_row db eid) :=
  ⟨h.1, h.2.1, fun e he => noSurr_filter db.events _ Event.name h.2.2 e he⟩

/-- Every reachable store has only stripped (no surrounding whitespace) names. -/
theorem reachable_namesStripped (db : DB) (h : Reachable db) : NamesStripped db := by
  induction h with
  | init =>
    exact ⟨fun d hd => by simp [DB.empty] at hd, fun v hv => by simp [DB.empty] at hv,
      fun e he => by simp [DB.empty] at he⟩
  | step_add_donor db n c t _ ih => exact namesStripped_add_donor db n c t ih
  | step_update_donor db i n c _ ih => exact namesStripped_update_donor db i n c ih
  | step_delete_donor db i conf _ ih => exact namesStripped_delete_donor db i conf ih
  | step_add_volunteer db n c _ ih => exact namesStripped_add_volunteer db n c ih
  | step_add_event db n d _ ih => exact namesStripped_add_event db n d ih
  | step_add_donation db dn a ds vn en no t _ ih =>
    exact namesStripped_add_donation db dn a ds vn en no t ih
  | step_delete_volunteer db vid _ ih => exact namesStripped_delete_volunteer db vid ih
  | step_delete_event db eid _ ih => exact namesStripped_delete_event db eid ih

/-! ## The insert branch of `add_donation` -/

theorem add_donation_inserts (db : DB) (rawDonor : String) (a : Rat)
    (rawDate rawVol rawEvent rawNotes now : String) (did : Nat)
    (hf : find_id_by_name db.donors Donor.donor_id Donor.name (pyStrip rawDonor) = some did)
    (hpos : 0 < a)
    (hdate : pyStrip rawDate = "" ∨ validDateTime (pyStrip rawDate) = true) :
    add_donation db rawDonor (some a) rawDate rawVol rawEvent rawNotes now =
      ({ db with
          donations := db.donations ++ [⟨db.nextDonationId, did, a,
            (if pyStrip rawDate = "" then now else pyStrip rawDate),
            (if pyStrip rawVol = "" then none
              else find_id_by_name db.volunteers Volunteer.volunteer_id Volunteer.name
                (pyStrip rawVol)),
            (if pyStrip rawEvent = "" then none
              else find_id_by_name db.events Event.event_id Event.name (pyStrip rawEvent)),
            pyStrip rawNotes⟩],
          nextDonationId := db.nextDonationId + 1 },
        AddDonationResult.added db.nextDonationId) := by
  have hnle : ¬ a ≤ 0 := not_le.mpr hpos
  by_cases hde : pyStrip rawDate = ""
  · simp [add_donation, hf, hnle, hde]
  · rcases hdate with hdate | hdv
    · exact absurd hdate hde
    · simp [add_donation, hf, hnle, hde, hdv]

/-! ## Claim theorems -/

/-- C9: every run of `add_donor` in which the entered name is empty inserts
zero rows and leaves the store unchanged (the empty-name report is returned
before any INSERT). -/
theorem add_donor_empty_name_rejected (db : DB) (rawContact now : String) :
    add_donor db "" rawContact now = (db, AddDonorResult.emptyName) := rfl

/-- C4: the name resolver returns an identifier exactly when some row of the
table has a name equal to the given name ignoring letter case — an exact
match, not a prefix or fuzzy match — and signals not-found (`none`) otherwise;
a returned identifier always belongs to such a case-insensitively matching
row. -/
theorem find_id_by_name_spec {α : Type} (rows : List α) (getId : α → Nat)
    (getName : α → String) (nv : String) :
    ((find_id_by_name rows getId getName nv).isSome = true ↔
      ∃ r ∈ rows, lowerStr (getName r) = lowerStr nv) ∧
    (∀ i, find_id_by_name rows getId getName nv = some i →
      ∃ r ∈ rows, getId r = i ∧ lowerStr (getName r) = lowerStr nv) :=
  ⟨find_id_by_name_isSome rows getId getName nv,
   fun i h => find_id_by_name_some_mem rows getId getName nv i h⟩

/-- C4 witness: the donor stored as "Ada Lovelace" is what the entered name
"ada lovelace" resolves to, and resolution succeeds exactly because of the
case-insensitive match. -/
theorem find_id_by_name_spec_witness :
    ∃ r ∈ adaDB.donors, Donor.donor_id r = 1 ∧ lowerStr r.name = lowerStr "ada lovelace" :=
  (find_id_by_name_spec adaDB.donors Donor.donor_id Donor.name "ada lovelace").2 1 (by decide)

/-- C6: `update_donor` on an existing donor with both inputs blank (stripping
to empty) issues no UPDATE — the whole store, hence the donor's row contents,
is unchanged and the no-op is reported — and a non-existing identifier is
rejected before any mutation. -/
theorem update_donor_blank_noop (db : DB) (i : Int) (rawName rawContact : String)
    (hn : pyStrip rawName = "") (hc : pyStrip rawContact = "") :
    ((db.donors.find? fun d => (d.donor_id : Int) == i).isSome = true →
      update_donor db (some i) rawName rawContact = (db, UpdateDonorResult.noChanges)) ∧
    ((db.donors.find? fun d => (d.donor_id : Int) == i) = none →
      update_donor db (some i) rawName rawContact = (db, UpdateDonorResult.notFound)) := by
  constructor
  · intro hex
    obtain ⟨d0, hf⟩ := Option.isSome_iff_exists.mp hex
    simp [update_donor, hf, hn, hc]
  · intro hf
    simp [update_donor, hf]

/-- C6 witness: updating the existing donor 1 with blank (whitespace-only and
empty) inputs reports a no-op and leaves the store identical. -/
theorem update_donor_blank_noop_witness :
    update_donor adaDB (some 1) " " "" = (adaDB, UpdateDonorResult.noChanges) :=
  (update_donor_blank_noop adaDB 1 " " "" (by decide) (by decide)).1 (by decide)

/-- C8: `delete_donor` mutates state only after an explicit affirmative
confirmation: a non-numeric identifier or a non-existing identifier leaves the
store unchanged, any confirmation whose lowercasing is not "yes" leaves the
store unchanged, and a deletion outcome implies the confirmation lowercased to
"yes". -/
theorem delete_donor_guarded (db : DB) (idInput : Option Int) (confirmInput : String) :
    (delete_donor db none confirmInput = (db, DeleteDonorResult.invalidId)) ∧
    (∀ i, (db.donors.find? fun d => (d.donor_id : Int) == i) = none →
      delete_donor db (some i) confirmInput = (db, DeleteDonorResult.notFound)) ∧
    (lowerStr confirmInput ≠ "yes" → (delete_donor db idInput confirmInput).1 = db) ∧
    ((delete_donor db idInput confirmInput).2 = DeleteDonorResult.deleted →
      lowerStr confirmInput = "yes") := by
  refine ⟨rfl, ?_, ?_, ?_⟩
  · intro i hf
    simp [delete_donor, hf]
  · intro hne
    cases idInput with
    | none => rfl
    | some i =>
      cases hf : db.donors.find? fun d => (d.donor_id : Int) == i with
      | none => simp [delete_donor, hf]
      | some d0 => simp [delete_donor, hf, hne]
  · intro hdel
    by_contra hne
    cases idInput with
    | none => simp [delete_donor] at hdel
    | some i =>
      cases hf : db.donors.find? fun d => (d.donor_id : Int) == i with
      | none => simp [delete_donor, hf] at hdel
      | some d0 => simp [delete_donor, hf, hne] at hdel

/-- C8 witness: answering "no" to the confirmation leaves the store unchanged
even for an existing donor. -/
theorem delete_donor_guarded_witness :
    (delete_donor adaDB (some 1) "no").1 = adaDB :=
  (delete_donor_guarded adaDB (some 1) "no").2.2.1 (by decide)

/-- C7: volunteer and event names are unique under case-sensitive exact
comparison: inserting a second volunteer or event whose (stripped) name is
already present fails with a duplicate report and leaves the store — hence
the table with only its first row — unchanged, while a non-duplicate name
(with, for events, a blank or valid date) is appended. -/
theorem unique_volunteer_event_names (db : DB) (nv cv ne de : String) :
    ((∃ v ∈ db.volunteers, v.name = pyStrip nv) → pyStrip nv ≠ "" →
      add_volunteer db nv cv = (db, AddVolunteerResult.duplicate)) ∧
    (pyStrip nv ≠ "" → (∀ v ∈ db.volunteers, v.name ≠ pyStrip nv) →
      (add_volunteer db nv cv).1.volunteers =
        db.volunteers ++ [⟨db.nextVolunteerId, pyStrip nv, pyStrip cv⟩] ∧
      (add_volunteer db nv cv).2 = AddVolunteerResult.added db.nextVolunteerId) ∧
    ((∃ e ∈ db.events, e.name = pyStrip ne) → pyStrip ne ≠ "" →
      (pyStrip de = "" ∨ validDate (pyStrip de) = true) →
      add_event db ne de = (db, AddEventResult.duplicate)) ∧
    (pyStrip ne ≠ "" → (∀ e ∈ db.events, e.name ≠ pyStrip ne) →
      (pyStrip de = "" ∨ validDate (pyStrip de) = true) →
      (add_event db ne de).1.events =
        db.events ++ [⟨db.nextEventId, pyStrip ne,
          if pyStrip de = "" then none else some (pyStrip de)⟩] ∧
      (add_event db ne de).2 = AddEventResult.added db.nextEventId) := by
  have hdatecond : (pyStrip de = "" ∨ validDate (pyStrip de) = true) →
      ¬ (pyStrip de ≠ "" ∧ validDate (pyStrip de) = false) := by
    rintro (h | h) ⟨h1, h2⟩
    · exact h1 h
    · rw [h] at h2
      exact absurd h2 (by simp)
  refine ⟨?_, ?_, ?_, ?_⟩
  · rintro ⟨v, hv, hname⟩ hne
    have hany : (db.volunteers.any fun v => v.name == pyStrip nv) = true :=
      List.any_eq_true.mpr ⟨v, hv, by simp [hname]⟩
    simp [add_volunteer, hne, hany]
  · intro hne hall
    have hany : (db.volunteers.any fun v => v.name == pyStrip nv) = false := by
      rw [List.any_eq_false]
      intro v hv
      simp [hall v hv]
    simp [add_volunteer, hne, hany]
  · rintro ⟨e, he, hname⟩ hne hdate
    have hany : (db.events.any fun e => e.name == pyStrip ne) = true :=
      List.any_eq_true.mpr ⟨e, he, by simp [hname]⟩
    simp [add_event, hne, hdatecond hdate, hany]
  · intro hne hall hdate
    have hany : (db.events.any fun e => e.name == pyStrip ne) = false := by
      rw [List.any_eq_false]
      intro e he
      simp [hall e he]
    simp [add_event, hne, hdatecond hdate, hany]

/-- C7 witness: adding "Bob" a second time is rejected with the store
unchanged, and adding the differently-cased "BOB" succeeds. -/
theorem unique_volunteer_event_names_witness :
    add_volunteer volDB "Bob" "" = (volDB, AddVolunteerResult.duplicate) ∧
    (add_volunteer volDB "BOB" "").1.volunteers =
      volDB.volunteers ++ [⟨2, "BOB", ""⟩] :=
  ⟨(unique_volunteer_event_names volDB "Bob" "" "" "").1 (by decide) (by decide),
   ((unique_volunteer_event_names volDB "BOB" "" "" "").2.1 (by decide) (by decide)).1⟩

/-- C5: in `add_donation`, a volunteer or event name that is given but does
not resolve is a soft failure — the donation is still inserted, with that
reference left empty — whereas an unresolved donor name aborts the whole
operation with no insert. -/
theorem add_donation_soft_fail (db : DB) (rawDonor : String) (amountInput : Option Rat)
    (rawDate rawVol rawEvent rawNotes now : String) :
    (find_id_by_name db.donors Donor.donor_id Donor.name (pyStrip rawDonor) = none →
      add_donation db rawDonor amountInput rawDate rawVol rawEvent rawNotes now =
        (db, AddDonationResult.donorNotFound)) ∧
    (∀ did a, find_id_by_name db.donors Donor.donor_id Donor.name (pyStrip rawDonor) = some did →
      amountInput = some a → 0 < a →
      (pyStrip rawDate = "" ∨ validDateTime (pyStrip rawDate) = true) →
      pyStrip rawVol ≠ "" →
      find_id_by_name db.volunteers Volunteer.volunteer_id Volunteer.name (pyStrip rawVol) =
        none →
      pyStrip rawEvent ≠ "" →
      find_id_by_name db.events Event.event_id Event.name (pyStrip rawEvent) = none →
      (add_donation db rawDonor amountInput rawDate rawVol rawEvent rawNotes now).1.donations =
        db.donations ++ [⟨db.nextDonationId, did, a,
          (if pyStrip rawDate = "" then now else pyStrip rawDate), none, none,
          pyStrip rawNotes⟩] ∧
      (add_donation db rawDonor amountInput rawDate rawVol rawEvent rawNotes now).2 =
        AddDonationResult.added db.nextDonationId) := by
  constructor
  · intro hf
    simp [add_donation, hf]
  · intro did a hf ha hpos hdate hvn hvf hen hef
    subst ha
    rw [add_donation_inserts db rawDonor a rawDate rawVol rawEvent rawNotes now did hf hpos
      hdate]
    constructor
    · simp [hvn, hvf, hen, hef]
    · rfl

/-- C5 witness: a donation for the existing donor with an unresolvable
volunteer name "Vera" and event name "Fair" is still inserted, with both
links empty. -/
theorem add_donation_soft_fail_witness :
    ((add_donation adaDB "Ada Lovelace" (some 50) "" "Vera" "Fair" ""
        "2024-05-01 12:00:00").1.donations =
      adaDB.donations ++ [⟨1, 1, 50, "2024-05-01 12:00:00", none, none, ""⟩]) ∧
    (add_donation adaDB "Ada Lovelace" (some 50) "" "Vera" "Fair" "" "2024-05-01 12:00:00").2 =
      AddDonationResult.added 1 :=
  (add_donation_soft_fail adaDB "Ada Lovelace" (some 50) "" "Vera" "Fair" ""
    "2024-05-01 12:00:00").2 1 50 (by decide) rfl (by decide) (Or.inl (by decide))
    (by decide) (by decide) (by decide) (by decide)

/-- C1 fails as stated: with the donor resolving and the amount a number
greater than 0, a malformed donation-date input ("x") still aborts the
operation with zero rows inserted, so "committed iff donor resolves and
amount > 0" does not hold. -/
theorem add_donation_commit_iff_counterexample :
    (find_id_by_name adaDB.donors Donor.donor_id Donor.name (pyStrip "Ada Lovelace")).isSome =
      true ∧
    (0 : Rat) < 5 ∧
    add_donation adaDB "Ada Lovelace" (some 5) "x" "" "" "" "2024-01-01 00:00:00" =
      (adaDB, AddDonationResult.invalidDate) :=
  ⟨by decide, by decide, by decide⟩

/-- C1 (amended): a donation row is committed iff the entered donor name
resolves, the entered amount parses to a number greater than 0, and the
donation-date input is blank or a valid "YYYY-MM-DD HH:MM:SS" timestamp; in
every other case zero rows are inserted and the store is unchanged. -/
theorem add_donation_commit_iff (db : DB) (rawDonor : String) (amountInput : Option Rat)
    (rawDate rawVol rawEvent rawNotes now : String) :
    (((find_id_by_name db.donors Donor.donor_id Donor.name (pyStrip rawDonor)).isSome = true ∧
      (∃ a, amountInput = some a ∧ 0 < a) ∧
      (pyStrip rawDate = "" ∨ validDateTime (pyStrip rawDate) = true)) →
      ∃ row,
        (add_donation db rawDonor amountInput rawDate rawVol rawEvent rawNotes now).1.donations
          = db.donations ++ [row]) ∧
    (¬ ((find_id_by_name db.donors Donor.donor_id Donor.name (pyStrip rawDonor)).isSome =
        true ∧
      (∃ a, amountInput = some a ∧ 0 < a) ∧
      (pyStrip rawDate = "" ∨ validDateTime (pyStrip rawDate) = true)) →
      (add_donation db rawDonor amountInput rawDate rawVol rawEvent rawNotes now).1 = db) := by
  constructor
  · rintro ⟨hdid, ⟨a, rfl, hpos⟩, hdate⟩
    obtain ⟨did, hf⟩ := Option.isSome_iff_exists.mp hdid
    rw [add_donation_inserts db rawDonor a rawDate rawVol rawEvent rawNotes now did hf hpos
      hdate]
    exact ⟨_, rfl⟩
  · intro hn
    cases hf : find_id_by_name db.donors Donor.donor_id Donor.name (pyStrip rawDonor) with
    | none => simp [add_donation, hf]
    | some did =>
      cases amountInput with
      | none => simp [add_donation, hf]
      | some a =>
        by_cases hle : a ≤ 0
        · simp [add_donation, hf, hle]
        · by_cases hde : pyStrip rawDate = ""
          · exact absurd ⟨by simp [hf], ⟨a, rfl, not_le.mp hle⟩, Or.inl hde⟩ hn
          · by_cases hdv : validDateTime (pyStrip rawDate) = true
            · exact absurd ⟨by simp [hf], ⟨a, rfl, not_le.mp hle⟩, Or.inr hdv⟩ hn
            · simp [add_donation, hf, hle, hde, hdv]

/-- C1 witness: the happy path commits exactly one donation row. -/
theorem add_donation_commit_iff_witness :
    ∃ row,
      (add_donation adaDB "ada lovelace" (some 50) "" "" "" ""
        "2024-05-01 12:00:00").1.donations = adaDB.donations ++ [row] :=
  (add_donation_commit_iff adaDB "ada lovelace" (some 50) "" "" "" "" "2024-05-01 12:00:00").1
    ⟨by decide, ⟨50, rfl, by decide⟩, Or.inl (by decide)⟩

/-- C2: a confirmed donor deletion removes the donor row and exactly that
donor's donation rows (cascade); deleting a volunteer row keeps every
donation row, merely clearing the volunteer reference of the donations that
held it; and every reachable store state has each donation referencing an
existing donor. -/
theorem cascade_and_set_null (db : DB) (i : Int) (conf : String) (vid : Nat) :
    ((db.donors.find? fun d => (d.donor_id : Int) == i).isSome = true →
      lowerStr conf = "yes" →
      (delete_donor db (some i) conf).1.donors =
        db.donors.filter (fun d => (d.donor_id : Int) != i) ∧
      (delete_donor db (some i) conf).1.donations =
        db.donations.filter (fun dn => (dn.donor_id : Int) != i)) ∧
    ((delete_volunteer_row db vid).donations.length = db.donations.length ∧
      (delete_volunteer_row db vid).donations = db.donations.map
        (fun dn => if dn.volunteer_id = some vid then { dn with volunteer_id := none }
          else dn)) ∧
    (∀ db' : DB, Reachable db' →
      ∀ dn ∈ db'.donations, ∃ d ∈ db'.donors, d.donor_id = dn.donor_id) := by
  refine ⟨?_, ⟨by simp [delete_volunteer_row], rfl⟩,
    fun db' h => reachable_donorFK db' h⟩
  intro hex hc
  obtain ⟨d0, hf⟩ := Option.isSome_iff_exists.mp hex
  constructor <;> simp [delete_donor, hf, hc]

/-- C2 witness: deleting donor 1 (confirmed with "YES") removes their two
donations and leaves Bob's donation untouched. -/
theorem cascade_and_set_null_witness :
    (delete_donor twoDonorDB (some 1) "YES").1.donors = [⟨2, "Bob", "", "t"⟩] ∧
    (delete_donor twoDonorDB (some 1) "YES").1.donations =
      [⟨3, 2, 30, "2024-01-03 00:00:00", none, none, ""⟩] := by
  have h := (cascade_and_set_null twoDonorDB 1 "YES" 0).1 (by decide) (by decide)
  exact ⟨by rw [h.1]; rfl, by rw [h.2]; rfl⟩

/-- C10: whitespace-only input strips to empty; stripping leaves no
surrounding whitespace; a whitespace-only name is rejected with the store
unchanged by the donor, volunteer and event adds; every interactive name
taking operation behaves as if its name inputs were pre-stripped; and every
reachable store has only stripped names. -/
theorem names_stripped_everywhere :
    (∀ s : String, (∀ c ∈ s.data, pySpace c = true) → pyStrip s = "") ∧
    (∀ s : String, NoSurroundingSpace (pyStrip s)) ∧
    (∀ (db : DB) (n c t : String), (∀ ch ∈ n.data, pySpace ch = true) →
      add_donor db n c t = (db, AddDonorResult.emptyName)) ∧
    (∀ (db : DB) (n c : String), (∀ ch ∈ n.data, pySpace ch = true) →
      add_volunteer db n c = (db, AddVolunteerResult.emptyName)) ∧
    (∀ (db : DB) (n d : String), (∀ ch ∈ n.data, pySpace ch = true) →
      add_event db n d = (db, AddEventResult.emptyName)) ∧
    (∀ (db : DB) (n c t : String),
      add_donor db n c t = add_donor db (pyStrip n) (pyStrip c) t) ∧
    (∀ (db : DB) (n c : String),
      add_volunteer db n c = add_volunteer db (pyStrip n) (pyStrip c)) ∧
    (∀ (db : DB) (n d : String), add_event db n d = add_event db (pyStrip n) (pyStrip d)) ∧
    (∀ (db : DB) (dn : String) (a : Option Rat) (ds vn en no t : String),
      add_donation db dn a ds vn en no t =
        add_donation db (pyStrip dn) a (pyStrip ds) (pyStrip vn) (pyStrip en) (pyStrip no)
          t) ∧
    (∀ db : DB, Reachable db → NamesStripped db) := by
  refine ⟨pyStrip_eq_empty_of_all_space, pyStrip_noSurroundingSpace, ?_, ?_, ?_, ?_, ?_, ?_,
    ?_, fun db h => reachable_namesStripped db h⟩
  · intro db n c t hsp
    simp [add_donor, pyStrip_eq_empty_of_all_space n hsp]
  · intro db n c hsp
    simp [add_volunteer, pyStrip_eq_empty_of_all_space n hsp]
  · intro db n d hsp
    simp [add_event, pyStrip_eq_empty_of_all_space n hsp]
  · intro db n c t
    simp only [add_donor, pyStrip_idem]
  · intro db n c
    simp only [add_volunteer, pyStrip_idem]
  · intro db n d
    simp only [add_event, pyStrip_idem]
  · intro db dn a ds vn en no t
    simp only [add_donation, pyStrip_idem]

/-- C10 witness: a whitespace-only donor name is rejected with the store
unchanged. -/
theorem names_stripped_everywhere_witness :
    add_donor adaDB "   " "x" "t" = (adaDB, AddDonorResult.emptyName) :=
  names_stripped_everywhere.2.2.1 adaDB "   " "x" "t" (by decide)

/-- C3 fails as stated: the search term is pasted into a LIKE pattern, so in
the term "_" the underscore acts as a single-character wildcard: the event
name "Gala" does not contain "_", yet the donation linked to "Gala" is
returned by an event-axis search for "_". -/
theorem search_donations_contains_counterexample :
    search_donations galaDB "3" "_" = SearchResult.results [galaRow] ∧
    galaRow.event_name = some "Gala" ∧
    ¬ List.IsInfix (lowerStr "_").data (lowerStr "Gala").data :=
  ⟨by decide, rfl, by decide⟩

/-- C3 (amended): for a non-empty search term containing no LIKE wildcard
characters ('%' or '_') and a valid axis choice, `search_donations` returns
exactly the joined donations whose chosen axis name exists (donations without
a linked volunteer or event are still joined, with a NULL name that never
matches) and contains the term case-insensitively, ordered by donation
timestamp descending. -/
theorem search_donations_amended (db : DB) (choice rawTerm : String)
    (hch : choice = "1" ∨ choice = "2" ∨ choice = "3")
    (hterm : pyStrip rawTerm ≠ "")
    (hwild : ∀ c ∈ (pyStrip rawTerm).data, c ≠ '%' ∧ c ≠ '_') :
    ∃ rows, search_donations db choice rawTerm = SearchResult.results rows ∧
      rows.Perm ((joinedRows db).filter (axisMatch choice (pyStrip rawTerm))) ∧
      List.Sorted dateGe rows ∧
      (∀ r, r ∈ rows ↔ r ∈ joinedRows db ∧ ∃ n, axisName choice r = some n ∧
        List.IsInfix (lowerStr (pyStrip rawTerm)).data (lowerStr n).data) := by
  refine ⟨List.insertionSort dateGe
    ((joinedRows db).filter (axisMatch choice (pyStrip rawTerm))), ?_, ?_, ?_, ?_⟩
  · simp only [search_donations]
    rw [if_neg hterm, if_pos hch]
  · exact List.perm_insertionSort dateGe _
  · exact List.sorted_insertionSort dateGe _
  · intro r
    rw [List.mem_insertionSort, List.mem_filter,
      axisMatch_iff_infix choice (pyStrip rawTerm) r hwild]

/-- C3 witness: an event-axis search for "gALa" returns, sorted and filtered,
exactly the donation linked to the event "Gala". -/
theorem search_donations_amended_witness :
    ∃ rows, search_donations galaDB "3" "gALa" = SearchResult.results rows ∧
      rows.Perm ((joinedRows galaDB).filter (axisMatch "3" (pyStrip "gALa"))) ∧
      List.Sorted dateGe rows ∧
      (∀ r, r ∈ rows ↔ r ∈ joinedRows galaDB ∧ ∃ n, axisName "3" r = some n ∧
        List.IsInfix (lowerStr (pyStrip "gALa")).data (lowerStr n).data) :=
  search_donations_amended galaDB "3" "gALa" (Or.inr (Or.inr rfl)) (by decide) (by decide)

end DonationTracker
